import Mathlib

set_option maxRecDepth 8000

/-!
Verification development for the mcp-agentify endpoint-extraction and
code-generation core.

The definitions below are a shallow embedding, translated from the
TypeScript sources:

  * `src/analyzer/RESTAnalyzer.ts`     (namespace `RESTAnalyzer`)
  * `src/analyzer/NodeJSAnalyzer.ts`   (namespace `NodeJSAnalyzer`)
  * `src/analyzer/OpenAPIAnalyzer.ts`  (namespace `OpenAPIAnalyzer`)
  * `src/analyzer/ProjectAnalyzer.ts`  (namespace `ProjectAnalyzer`)
  * `src/generator/TemplateManager.ts` (namespace `TemplateManager`)
  * `src/generator/MCPGenerator.ts`    (namespace `MCPGenerator`)

JavaScript strings are modelled as `String` (lists of characters);
`toUpperCase`/`toLowerCase`/`\s`/`\w` are modelled for the ASCII inputs the
analyzed sources consist of.  Each JavaScript regular expression used by the
code is embedded as a dedicated matching function over `List Char`, together
with a generic left-to-right scanner reproducing the `while (pattern.exec)`
loops (leftmost match, continue at the end of the previous match).
-/

namespace Agentify

abbrev Chars := List Char

/-- The backtick character (0x60), written via its code point. -/
def backtickChar : Char := Char.ofNat 96

/-- JavaScript `toLowerCase` (ASCII range, which covers all analyzed input). -/
def jsLower (s : Chars) : Chars := s.map Char.toLower

/-- JavaScript `toUpperCase` (ASCII range). -/
def jsUpper (s : Chars) : Chars := s.map Char.toUpper

/-- `String` version of `jsLower`. -/
def toLowerStr (s : String) : String := String.mk (jsLower s.data)

/-- `String` version of `jsUpper`. -/
def toUpperStr (s : String) : String := String.mk (jsUpper s.data)

/-- Character class of the regex quote group `['"\x60]` (single quote,
double quote, backtick). -/
def isQuote (c : Char) : Bool := c = '\'' || c = '"' || c = backtickChar

/-- Character class `['"]` (single or double quote only). -/
def isQuote2 (c : Char) : Bool := c = '\'' || c = '"'

/-- Regex `\s` (whitespace), restricted to the ASCII whitespace appearing in
the analyzed sources. -/
def isWs (c : Char) : Bool := c = ' ' || c = '\t' || c = '\n' || c = '\r'

/-- Regex `\w` = `[A-Za-z0-9_]`. -/
def isWordChar (c : Char) : Bool := c.isAlphanum || c = '_'

/-- First character of a JavaScript identifier: `[a-zA-Z_$]`. -/
def isIdentStart (c : Char) : Bool := c.isAlpha || c = '_' || c = '$'

/-- Subsequent character of a JavaScript identifier: `[a-zA-Z0-9_$]`. -/
def isIdentChar (c : Char) : Bool := c.isAlphanum || c = '_' || c = '$'

/-- Characters removed by `replace(/[{}:]/g, '')`. -/
def isParamChar (c : Char) : Bool := c = '{' || c = '}' || c = ':'

/-- JavaScript `String.prototype.trim` (ASCII whitespace). -/
def jsTrim (s : Chars) : Chars :=
  ((s.dropWhile isWs).reverse.dropWhile isWs).reverse

/-- JavaScript `split(sep)` for a single-character separator: `"".split`
gives `[""]`, `"/".split('/')` gives `["", ""]`. -/
def splitOnChar (sep : Char) : Chars → List Chars
  | [] => [[]]
  | c :: cs =>
    if c = sep then [] :: splitOnChar sep cs
    else
      match splitOnChar sep cs with
      | [] => [[c]]
      | p :: ps => (c :: p) :: ps

/-- Substring test: does `needle` occur contiguously inside `hay`?
Models JavaScript `String.prototype.includes`. -/
def listContains (hay needle : Chars) : Bool :=
  needle.isPrefixOf hay ||
    match hay with
    | [] => false
    | _ :: t => listContains t needle

/-- Match a literal string at the head of the input; returns the rest. -/
def lit : Chars → Chars → Option Chars
  | [], s => some s
  | _ :: _, [] => none
  | c :: cs, x :: xs => if x = c then lit cs xs else none

/-- Case-insensitive literal match (regex `i` flag); returns the rest. -/
def litCI : Chars → Chars → Option Chars
  | [], s => some s
  | _ :: _, [] => none
  | c :: cs, x :: xs => if x.toLower = c.toLower then litCI cs xs else none

/-- Regex alternation of literals `(?:a|b|...)`: alternatives are tried in
the order written; returns (consumed text, rest). -/
def altLit : List Chars → Chars → Option (Chars × Chars)
  | [], _ => none
  | a :: as, s =>
    match lit a s with
    | some r => some (a, r)
    | none => altLit as s

/-- Case-insensitive alternation of literals; the consumed text keeps its
original case (as `match[0]` does in JavaScript). -/
def altLitCI : List Chars → Chars → Option (Chars × Chars)
  | [], _ => none
  | a :: as, s =>
    match litCI a s with
    | some r => some (s.take a.length, r)
    | none => altLitCI as s

/-- Regex `\s*`: always succeeds. -/
def ws0 (s : Chars) : Chars := s.dropWhile isWs

/-- Regex `\s+`: at least one whitespace character. -/
def ws1 (s : Chars) : Option Chars :=
  match s with
  | c :: cs => if isWs c then some (cs.dropWhile isWs) else none
  | [] => none

/-- Regex `['"\x60]([^'"\x60]+)['"\x60]`: any quote, a nonempty run of
non-quote characters (captured), any closing quote.  Returns
(capture, rest). -/
def matchQuotedCapture (s : Chars) : Option (Chars × Chars) :=
  match s with
  | [] => none
  | q :: rest =>
    if isQuote q then
      let cap := rest.takeWhile (fun c => !isQuote c)
      if cap.isEmpty then none
      else
        match rest.drop cap.length with
        | q2 :: rest2 => if isQuote q2 then some (cap, rest2) else none
        | [] => none
    else none

/-- One result of a global regex scan: the captured data, the 0-based index
of the match (JavaScript `match.index`) and the full matched text
(`match[0]`). -/
structure ScanHit (β : Type) where
  val : β
  idx : Nat
  text : Chars
  deriving DecidableEq

/-- Generic `while ((match = re.exec(content)) !== null)` loop for a regex
whose matches are nonempty: at each position try the matcher; on success
record the hit and resume at the end of the match (`lastIndex`), otherwise
advance one character.  `fuel` is initialized with the length of the input,
which suffices because every match consumes at least one character. -/
def scanAux (try_ : Chars → Option (β × Chars)) : Nat → Nat → Chars → List (ScanHit β)
  | 0, _, _ => []
  | _ + 1, _, [] => []
  | n + 1, pos, s@(_ :: cs) =>
    match try_ s with
    | some (b, rest) =>
      let len := s.length - rest.length
      if len = 0 then [] -- unreachable for the matchers used here
      else { val := b, idx := pos, text := s.take len } :: scanAux try_ n (pos + len) rest
    | none => scanAux try_ n (pos + 1) cs

/-- Run a global regex scan over a whole string. -/
def scan (try_ : Chars → Option (β × Chars)) (s : Chars) : List (ScanHit β) :=
  scanAux try_ s.length 0 s

/-! ## Data model (`src/types.ts`) -/

/-- `Parameter` from `src/types.ts`; the optional `description` is `none`
when the source leaves it `undefined`.  The TS field `in` is a reserved
word in Lean and is rendered `loc`. -/
structure Parameter where
  name : String
  type : String
  required : Bool
  description : Option String := none
  loc : String
  deriving DecidableEq

/-- `EndpointInfo` from `src/types.ts` (the `responses`/`tags` fields, used
only by OpenAPI-mode extraction, are not touched by any claim and are
omitted). -/
structure EndpointInfo where
  path : String
  method : String
  description : Option String := none
  parameters : List Parameter := []
  deriving DecidableEq

/-- `ProjectInfo` from `src/types.ts`. -/
structure ProjectInfo where
  name : String
  type : String
  rootPath : String
  endpoints : List EndpointInfo
  baseUrl : Option String := none
  version : Option String := none
  description : Option String := none
  deriving DecidableEq

/-- `TransformRule` from `src/types.ts`. -/
structure TransformRule where
  pattern : String
  replacement : String
  type : String
  deriving DecidableEq

/-- `MCPConfig` from `src/types.ts`.  The optional `excludeEndpoints` array
is modelled as a plain list: an absent array behaves exactly like `[]` in
`excludeEndpoints?.includes(key)`. -/
structure MCPConfig where
  serverName : String
  description : String
  version : String
  outputFormat : String
  includeTests : Bool
  includeDocumentation : Bool
  customTemplates : Option String := none
  excludeEndpoints : List String := []
  transformRules : List TransformRule := []
  deriving DecidableEq

/-- The deduplication key `` `${endpoint.method}:${endpoint.path}` `` used by
both analyzers and by the generator's exclusion filter. -/
def endpointKey (e : EndpointInfo) : String := e.method ++ ":" ++ e.path

/-! ## Endpoint aggregation / deduplication

`RESTAnalyzer.deduplicateEndpoints` (RESTAnalyzer.ts:529-539) and
`NodeJSAnalyzer.deduplicateEndpoints` (NodeJSAnalyzer.ts) are textually
identical: a `filter` over the list threading a `Set<string>` of seen keys.
The `Set` is modelled as the list of keys inserted so far. -/

def dedupGo (seen : List String) : List EndpointInfo → List EndpointInfo
  | [] => []
  | e :: rest =>
    if endpointKey e ∈ seen then dedupGo seen rest
    else e :: dedupGo (endpointKey e :: seen) rest

/-- `deduplicateEndpoints` as implemented identically in both analyzers. -/
def deduplicateEndpoints (endpoints : List EndpointInfo) : List EndpointInfo :=
  dedupGo [] endpoints

namespace RESTAnalyzer

/-- The fixed method list of `extractMethodFromMatch`
(RESTAnalyzer.ts:498-509). -/
def httpMethodsUpper : List String :=
  [("GET"), ("POST"), ("PUT"), ("PATCH"), ("DELETE"), ("OPTIONS"), ("HEAD")]

/-- `extractMethodFromMatch(matchStr)`: uppercase the matched text, return
the first entry of the fixed method list occurring in it as a substring,
defaulting to GET. -/
def extractMethodFromMatch (matchStr : String) : String :=
  let upperMatch := toUpperStr matchStr
  (httpMethodsUpper.find? (fun m => listContains upperMatch.data m.data)).getD ("GET")

/-- The lowercase HTTP verbs as they appear in the route-registration
regexes, in source order. -/
def methodsLower : List Chars :=
  [("get").data, ("post").data, ("put").data, ("patch").data,
   ("delete").data, ("options").data, ("head").data]

/-- `extractParametersFromPath` (RESTAnalyzer.ts:441-460): global regex
`[{:]([^}/:]+)[}]?`; each match, with `{`/`}`/`:` stripped, becomes a
required string path parameter. -/
def matchPathParam (s : Chars) : Option (Unit × Chars) :=
  match s with
  | [] => none
  | c :: rest =>
    if c = '{' || c = ':' then
      let run := rest.takeWhile (fun x => !(x = '}' || x = '/' || x = ':'))
      if run.isEmpty then none
      else
        match rest.drop run.length with
        | '}' :: rest2 => some ((), rest2)
        | rest2 => some ((), rest2)
    else none

def extractParametersFromPath (path : String) : List Parameter :=
  (scan matchPathParam path.data).map fun hit =>
    let paramName := String.mk (hit.text.filter (fun c => !isParamChar c))
    { name := paramName
      loc := ("path")
      type := ("string")
      required := true
      description := some (("Path parameter: ") ++ paramName) }

/-- JS pattern 0 (RESTAnalyzer.ts:128):
`(?:app|router|server)\.(?:get|post|put|patch|delete|options|head)\s*\(\s*['"\x60]([^'"\x60]+)['"\x60]`.
Capture: the path literal. -/
def matchExpressRoute (s : Chars) : Option (Chars × Chars) := do
  let (_, s1) ← altLit [("app").data, ("router").data, ("server").data] s
  let s2 ← lit [('.')] s1
  let (_, s3) ← altLit methodsLower s2
  let s4 ← lit [('(')] (ws0 s3)
  matchQuotedCapture (ws0 s4)

/-- JS pattern 1 (RESTAnalyzer.ts:131), NestJS decorators (flag `i`):
`@(?:Get|Post|Put|Patch|Delete|Options|Head)\s*\(\s*['"\x60]([^'"\x60]+)['"\x60]`. -/
def matchNestRoute (s : Chars) : Option (Chars × Chars) := do
  let s1 ← lit [('@')] s
  let (_, s2) ← altLitCI methodsLower s1
  let s3 ← lit [('(')] (ws0 s2)
  matchQuotedCapture (ws0 s3)

/-- Backtracking tail of the Hapi pattern: `[^}]*path:\s*['"\x60]([^'"\x60]+)['"\x60]`
with the greedy `[^}]*` trying the longest prefix of the non-`}` run first. -/
def hapiTail (s : Chars) : Nat → Option (Chars × Chars)
  | 0 =>
    (do
      let t ← lit (("path:").data) s
      matchQuotedCapture (ws0 t))
  | i + 1 =>
    (do
      let t ← lit (("path:").data) (s.drop (i + 1))
      matchQuotedCapture (ws0 t)) <|> hapiTail s i

/-- JS pattern 2 (RESTAnalyzer.ts:134), Hapi route configuration (flags `gs`):
`server\.route\s*\(\s*\{\s*method:\s*['"\x60]([^'"\x60]+)['"\x60][^}]*path:\s*['"\x60]([^'"\x60]+)['"\x60]`. -/
def matchHapiRoute (s : Chars) : Option ((Chars × Chars) × Chars) := do
  let s1 ← lit (("server.route").data) s
  let s2 ← lit [('(')] (ws0 s1)
  let s3 ← lit [('{')] (ws0 s2)
  let s4 ← lit (("method:").data) (ws0 s3)
  let (m, s5) ← matchQuotedCapture (ws0 s4)
  let run := s5.takeWhile (fun c => c ≠ '}')
  let (p, rest) ← hapiTail s5 run.length
  pure ((m, p), rest)

/-- JS pattern 3 (RESTAnalyzer.ts:137), Next.js API route handler:
`export\s+(?:default\s+)?(?:async\s+)?function\s+(?:handler|\w+)\s*\([^)]*req[^)]*\)`. -/
def matchNextHandler (s : Chars) : Option (Unit × Chars) := do
  let s1 ← lit (("export").data) s
  let s2 ← ws1 s1
  let s3 := match (do let t ← lit (("default").data) s2; ws1 t) with
    | some t => t
    | none => s2
  let s4 := match (do let t ← lit (("async").data) s3; ws1 t) with
    | some t => t
    | none => s3
  let s5 ← lit (("function").data) s4
  let s6 ← ws1 s5
  let fname := s6.takeWhile isWordChar
  if fname.isEmpty then none
  else
    let s7 ← lit [('(')] (ws0 (s6.drop fname.length))
    let argRun := s7.takeWhile (fun c => c ≠ ')')
    if listContains argRun (("req").data) then
      match s7.drop argRun.length with
      | ')' :: rest => some ((), rest)
      | _ => none
    else none

/-- `inferNextJsApiPath` helper: decompose `(.+)\.[jt]sx?$` — the greedy
capture prefers the shortest extension suffix (`.js`/`.ts` before
`.jsx`/`.tsx`). -/
def nextExtSplit (rest : Chars) : Option Chars :=
  if ((".js").data).isSuffixOf rest || ((".ts").data).isSuffixOf rest then
    let cap := rest.take (rest.length - 3)
    if cap.isEmpty then none else some cap
  else if ((".jsx").data).isSuffixOf rest || ((".tsx").data).isSuffixOf rest then
    let cap := rest.take (rest.length - 4)
    if cap.isEmpty then none else some cap
  else none

/-- Leftmost match of `(?:pages|src\/pages)\/api\/(.+)\.[jt]sx?$` over the
file name; returns the capture group. -/
def findNextApiCapture : Chars → Option Chars
  | [] => none
  | s@(_ :: cs) =>
    (do
      let t ← lit (("pages/api/").data) s
      nextExtSplit t) <|>
    (do
      let t ← lit (("src/pages/api/").data) s
      nextExtSplit t) <|>
    findNextApiCapture cs

/-- `replace(/\[([^\]]+)\]/g, '\x7b$1\x7d')`: each `[seg]` becomes `{seg}`. -/
def bracketReplace : Nat → Chars → Chars
  | 0, s => s
  | _ + 1, [] => []
  | n + 1, '[' :: rest =>
    let run := rest.takeWhile (fun c => c ≠ ']')
    if run.isEmpty then '[' :: bracketReplace n rest
    else
      match rest.drop run.length with
      | ']' :: rest2 => '{' :: (run ++ '}' :: bracketReplace n rest2)
      | _ => '[' :: bracketReplace n rest
  | n + 1, c :: rest => c :: bracketReplace n rest

/-- `replace(/\/index$/, '')`. -/
def dropIndexSuffix (s : Chars) : Chars :=
  if (("/index").data).isSuffixOf s then s.take (s.length - 6) else s

/-- `inferNextJsApiPath(filename)` (RESTAnalyzer.ts:462-472). -/
def inferNextJsApiPath (filename : String) : String :=
  match findNextApiCapture filename.data with
  | some cap =>
    let p := ("/api/") ++ String.mk (dropIndexSuffix (bracketReplace cap.length cap))
    if p = ("/api/") then ("/api") else p
  | none => ("/api/unknown")

/-- Outer regex of `extractMethodsFromNextJsHandler` (RESTAnalyzer.ts:476):
`req\.method\s*===?\s*['"](GET|POST|PUT|PATCH|DELETE|OPTIONS|HEAD)["']` with
flags `gi`. -/
def matchReqMethodCheck (s : Chars) : Option (Unit × Chars) := do
  let s1 ← litCI (("req.method").data) s
  let s2 ← lit (("==").data) (ws0 s1)
  let s3 := match lit [('=')] s2 with
    | some t => t
    | none => s2
  match ws0 s3 with
  | q :: s4 =>
    if isQuote2 q then do
      let (_, s5) ← altLitCI (httpMethodsUpper.map String.data) s4
      match s5 with
      | q2 :: s6 => if isQuote2 q2 then some ((), s6) else none
      | [] => none
    else none
  | [] => none

/-- Inner regex of `extractMethodsFromNextJsHandler` (RESTAnalyzer.ts:480):
`['"](\\w+)['"]` with flag `i`.  In a JavaScript regex literal `\\` matches
one literal backslash character and `w+` one or more letters `w`, so the
capture is a backslash followed by `w`s between two quotes.  Leftmost
match; returns the capture (`match[1]`). -/
def innerMethodMatch : Chars → Option Chars
  | [] => none
  | q :: rest =>
    (if isQuote2 q then
      match rest with
      | '\\' :: r2 =>
        let run := r2.takeWhile (fun c => c = 'w' || c = 'W')
        if run.isEmpty then none
        else
          match r2.drop run.length with
          | q2 :: _ => if isQuote2 q2 then some ('\\' :: run) else none
          | [] => none
      | _ => none
    else none) <|> innerMethodMatch rest

/-- The `functionBody.match(/req\.method.../gi)` result: the list of full
matched texts. -/
def nextJsMethodChecks (functionBody : String) : List String :=
  (scan matchReqMethodCheck functionBody.data).map fun hit => String.mk hit.text

/-- `extractMethodsFromNextJsHandler` (RESTAnalyzer.ts:474-488). -/
def extractMethodsFromNextJsHandler (functionBody : String) : List String :=
  let methods := (nextJsMethodChecks functionBody).filterMap fun check =>
    (innerMethodMatch check.data).map fun capture => toUpperStr (String.mk capture)
  if methods.length > 0 then methods else [("GET"), ("POST")]

/-- `extractJavaScriptEndpoints` (RESTAnalyzer.ts:122-177): the four
patterns run in order; all matches of a pattern are pushed before the next
pattern runs. -/
def extractJavaScriptEndpoints (content filename : String) : List EndpointInfo :=
  let cs := content.data
  let p0 := (scan matchExpressRoute cs).map fun hit =>
    { path := String.mk hit.val
      method := extractMethodFromMatch (String.mk hit.text)
      description := some (("Endpoint from ") ++ filename)
      parameters := extractParametersFromPath (String.mk hit.val) : EndpointInfo }
  let p1 := (scan matchNestRoute cs).map fun hit =>
    { path := String.mk hit.val
      method := extractMethodFromMatch (String.mk hit.text)
      description := some (("Endpoint from ") ++ filename)
      parameters := extractParametersFromPath (String.mk hit.val) : EndpointInfo }
  let p2 := (scan matchHapiRoute cs).map fun hit =>
    { path := String.mk hit.val.2
      method := toUpperStr (String.mk hit.val.1)
      description := some (("Hapi.js endpoint from ") ++ filename)
      parameters := extractParametersFromPath (String.mk hit.val.2) : EndpointInfo }
  let p3 := (scan matchNextHandler cs).flatMap fun _ =>
    let apiPath := inferNextJsApiPath filename
    (extractMethodsFromNextJsHandler content).map fun method =>
      { path := apiPath
        method := method
        description := some (("Next.js API route from ") ++ filename)
        parameters := extractParametersFromPath apiPath : EndpointInfo }
  p0 ++ p1 ++ p2 ++ p3

/-! ### Python extraction (RESTAnalyzer.ts:179-257) -/

/-- Python pattern 0, Flask:
`@app\.route\s*\(\s*['"\x60]([^'"\x60]+)['"\x60](?:,\s*methods\s*=\s*\[([^\]]+)\])?\)`.
Captures the path and, optionally, the raw text of the methods list. -/
def matchFlaskRoute (s : Chars) : Option ((Chars × Option Chars) × Chars) := do
  let s1 ← lit (("@app.route").data) s
  let s2 ← lit [('(')] (ws0 s1)
  let (path, s3) ← matchQuotedCapture (ws0 s2)
  let attempt : Option (Chars × Chars) := do
    let t1 ← lit [(',')] s3
    let t2 ← lit (("methods").data) (ws0 t1)
    let t3 ← lit [('=')] (ws0 t2)
    let t4 ← lit [('[')] (ws0 t3)
    let run := t4.takeWhile (fun c => c ≠ ']')
    if run.isEmpty then none
    else
      match t4.drop run.length with
      | ']' :: t5 => some (run, t5)
      | _ => none
  match attempt with
  | some (ms, s4) => do
    let s5 ← lit [(')')] s4
    pure ((path, some ms), s5)
  | none => do
    let s5 ← lit [(')')] s3
    pure ((path, none), s5)

/-- Python pattern 1, Django URL patterns:
`(?:path|url|re_path)\s*\(\s*r?['"\x60]([^'"\x60]+)['"\x60]`. -/
def matchDjangoRoute (s : Chars) : Option (Chars × Chars) := do
  let (_, s1) ← altLit [("path").data, ("url").data, ("re_path").data] s
  let s2 ← lit [('(')] (ws0 s1)
  let s3 := ws0 s2
  let s4 := match lit [('r')] s3 with
    | some t => t
    | none => s3
  matchQuotedCapture s4

/-- Python pattern 2, FastAPI (flags `gi`):
`@(?:app\.)?(get|post|put|patch|delete|options|head)\s*\(\s*['"\x60]([^'"\x60]+)['"\x60]`.
Captures (method text, path). -/
def fastApiTail (s : Chars) : Option ((Chars × Chars) × Chars) := do
  let (mtext, s1) ← altLitCI methodsLower s
  let s2 ← lit [('(')] (ws0 s1)
  let (p, s3) ← matchQuotedCapture (ws0 s2)
  pure ((mtext, p), s3)

def matchFastApiRoute (s : Chars) : Option ((Chars × Chars) × Chars) := do
  let s1 ← lit [('@')] s
  match (do let t ← litCI (("app.").data) s1; fastApiTail t) with
  | some r => some r
  | none => fastApiTail s1

/-- Python pattern 3, Django REST Framework:
`class\s+(\w+ViewSet|\w+View)\s*\([^)]*\):`.  The greedy `\w+` forces the
group to cover the whole word run, which must end in `ViewSet` (first
alternative) or `View`. -/
def matchDrfClass (s : Chars) : Option (Chars × Chars) := do
  let s1 ← lit (("class").data) s
  let s2 ← ws1 s1
  let w := s2.takeWhile isWordChar
  let okView := ((("ViewSet").data).isSuffixOf w && w.length > 7) ||
    ((("View").data).isSuffixOf w && w.length > 4)
  if !okView then none
  else
    let s3 ← lit [('(')] (ws0 (s2.drop w.length))
    let run := s3.takeWhile (fun c => c ≠ ')')
    match s3.drop run.length with
    | ')' :: ':' :: rest => some (w, rest)
    | _ => none

/-- `viewName.replace(/ViewSet|View/i, '')`: remove the leftmost
case-insensitive occurrence, `ViewSet` preferred at equal position. -/
def stripFirstView : Chars → Chars
  | [] => []
  | c :: cs =>
    match litCI (("ViewSet").data) (c :: cs) with
    | some r => r
    | none =>
      match litCI (("View").data) (c :: cs) with
      | some r => r
      | none => c :: stripFirstView cs

/-- `normalizeDjangoPath` (RESTAnalyzer.ts:490-496), step 1:
`replace(/\(\?P<([^>]+)>[^)]+\)/g, '\x7b$1\x7d')`. -/
def djangoNamedGroupReplace : Nat → Chars → Chars
  | 0, s => s
  | _ + 1, [] => []
  | n + 1, s@(c :: rest) =>
    match (do
      let t1 ← lit (("(?P<").data) s
      let name := t1.takeWhile (fun x => x ≠ '>')
      if name.isEmpty then none
      else
        match t1.drop name.length with
        | '>' :: t2 =>
          let body := t2.takeWhile (fun x => x ≠ ')')
          if body.isEmpty then none
          else
            match t2.drop body.length with
            | ')' :: t3 => some (name, t3)
            | _ => none
        | _ => none) with
    | some (name, t3) => '{' :: (name ++ '}' :: djangoNamedGroupReplace n t3)
    | none => c :: djangoNamedGroupReplace n rest

/-- `normalizeDjangoPath` step 2: `replace(/\\d\+/g, '\x7bid\x7d')` — the
regex matches the literal three characters backslash, `d`, `+`. -/
def djangoDigitsReplace : Nat → Chars → Chars
  | 0, s => s
  | _ + 1, [] => []
  | n + 1, s@(c :: rest) =>
    match lit (("\\d+").data) s with
    | some t => '{' :: ('i' :: 'd' :: '}' :: djangoDigitsReplace n t)
    | none => c :: djangoDigitsReplace n rest

/-- `normalizeDjangoPath` step 4: `replace(/\/+/g, '/')` — a run of slashes
collapses to a single slash. -/
def collapseSlashes : Chars → Chars
  | [] => []
  | [c] => [c]
  | a :: b :: rest =>
    if a = '/' && b = '/' then collapseSlashes (b :: rest)
    else a :: collapseSlashes (b :: rest)

/-- `normalizeDjangoPath(path)` (RESTAnalyzer.ts:490-496). -/
def normalizeDjangoPath (path : String) : String :=
  let s1 := djangoNamedGroupReplace path.data.length path.data
  let s2 := djangoDigitsReplace s1.length s1
  let s3 := s2.filter (fun c => !(c = '^' || c = '$'))
  String.mk (collapseSlashes s3)

/-- The Flask `methods=[...]` list:
`methodsStr.replace(/['"\s]/g, '').split(',')`. -/
def flaskMethods (methodsStr : Chars) : List Chars :=
  splitOnChar ',' (methodsStr.filter (fun c => !(c = '\'' || c = '"' || isWs c)))

/-- The DRF one-to-many expansion (RESTAnalyzer.ts:230-252): a single
`<Name>ViewSet`/`<Name>View` class match synthesizes the six conventional
CRUD endpoints on `/<name>/` and `/<name>/{id}/`. -/
def drfCrudEndpoints (viewName filename : String) : List EndpointInfo :=
  let basePath := ("/") ++ String.mk (jsLower (stripFirstView viewName.data)) ++ ("/")
  let crud : List (String × String × String) :=
    [(("GET"), basePath, ("List")),
     (("POST"), basePath, ("Create")),
     (("GET"), basePath ++ ("{id}/"), ("Retrieve")),
     (("PUT"), basePath ++ ("{id}/"), ("Update")),
     (("PATCH"), basePath ++ ("{id}/"), ("Partial Update")),
     (("DELETE"), basePath ++ ("{id}/"), ("Delete"))]
  crud.map fun mpd =>
    { path := mpd.2.1
      method := mpd.1
      description := some (("DRF ") ++ viewName ++ (" - ") ++ mpd.2.2)
      parameters := extractParametersFromPath mpd.2.1 : EndpointInfo }

/-- `extractPythonEndpoints` (RESTAnalyzer.ts:179-257). -/
def extractPythonEndpoints (content filename : String) : List EndpointInfo :=
  let cs := content.data
  let p0 := (scan matchFlaskRoute cs).flatMap fun hit =>
    let path := String.mk hit.val.1
    let methods := match hit.val.2 with
      | some ms => (flaskMethods ms).map String.mk
      | none => [("GET")]
    methods.map fun m =>
      { path := path
        method := toUpperStr (String.mk (jsTrim m.data))
        description := some (("Flask endpoint from ") ++ filename)
        parameters := extractParametersFromPath path : EndpointInfo }
  let p1 := (scan matchDjangoRoute cs).map fun hit =>
    let path := normalizeDjangoPath (String.mk hit.val)
    { path := path
      method := ("GET")
      description := some (("Django endpoint from ") ++ filename)
      parameters := extractParametersFromPath path : EndpointInfo }
  let p2 := (scan matchFastApiRoute cs).map fun hit =>
    { path := String.mk hit.val.2
      method := toUpperStr (String.mk hit.val.1)
      description := some (("FastAPI endpoint from ") ++ filename)
      parameters := extractParametersFromPath (String.mk hit.val.2) : EndpointInfo }
  let p3 := (scan matchDrfClass cs).flatMap fun hit =>
    drfCrudEndpoints (String.mk hit.val) filename
  p0 ++ p1 ++ p2 ++ p3

/-! ### Go / PHP / Ruby extraction (RESTAnalyzer.ts:283-353) -/

/-- Go pattern (flags `gi`):
`(?:router|r|e)\.(?:GET|POST|PUT|PATCH|DELETE|OPTIONS|HEAD)\s*\(\s*['"\x60]([^'"\x60]+)['"\x60]`. -/
def matchGoRoute (s : Chars) : Option (Chars × Chars) := do
  let (_, s1) ← altLit [("router").data, ("r").data, ("e").data] s
  let s2 ← lit [('.')] s1
  let (_, s3) ← altLitCI (httpMethodsUpper.map String.data) s2
  let s4 ← lit [('(')] (ws0 s3)
  matchQuotedCapture (ws0 s4)

/-- `extractGoEndpoints` (RESTAnalyzer.ts:283-305). -/
def extractGoEndpoints (content filename : String) : List EndpointInfo :=
  (scan matchGoRoute content.data).map fun hit =>
    { path := String.mk hit.val
      method := extractMethodFromMatch (String.mk hit.text)
      description := some (("Go endpoint from ") ++ filename)
      parameters := extractParametersFromPath (String.mk hit.val) : EndpointInfo }

/-- PHP pattern (flags `gi`):
`Route::(?:get|post|put|patch|delete|options|head)\s*\(\s*['"\x60]([^'"\x60]+)['"\x60]`. -/
def matchPhpRoute (s : Chars) : Option (Chars × Chars) := do
  let s1 ← litCI (("Route::").data) s
  let (_, s2) ← altLitCI methodsLower s1
  let s3 ← lit [('(')] (ws0 s2)
  matchQuotedCapture (ws0 s3)

/-- `extractPHPEndpoints` (RESTAnalyzer.ts:307-329). -/
def extractPHPEndpoints (content filename : String) : List EndpointInfo :=
  (scan matchPhpRoute content.data).map fun hit =>
    { path := String.mk hit.val
      method := extractMethodFromMatch (String.mk hit.text)
      description := some (("PHP endpoint from ") ++ filename)
      parameters := extractParametersFromPath (String.mk hit.val) : EndpointInfo }

/-- Ruby pattern (flags `gi`):
`(?:get|post|put|patch|delete|options|head)\s+['"\x60]([^'"\x60]+)['"\x60]`. -/
def matchRubyRoute (s : Chars) : Option (Chars × Chars) := do
  let (_, s1) ← altLitCI methodsLower s
  let s2 ← ws1 s1
  matchQuotedCapture s2

/-- `extractRubyEndpoints` (RESTAnalyzer.ts:331-353). -/
def extractRubyEndpoints (content filename : String) : List EndpointInfo :=
  (scan matchRubyRoute content.data).map fun hit =>
    { path := String.mk hit.val
      method := extractMethodFromMatch (String.mk hit.text)
      description := some (("Rails endpoint from ") ++ filename)
      parameters := extractParametersFromPath (String.mk hit.val) : EndpointInfo }

end RESTAnalyzer

namespace NodeJSAnalyzer

/-- `httpMethods` (NodeJSAnalyzer.ts): the lowercase verbs accepted by
`parseEndpointsFromFile`. -/
def httpMethods : List String :=
  [("get"), ("post"), ("put"), ("patch"), ("delete"), ("options"), ("head")]

/-- Express pattern 0:
`(?:app|router)\.(get|post|put|patch|delete|options|head)\s*\(\s*['"\x60]([^'"\x60]+)['"\x60]`.
Captures (method, path). -/
def matchExpress0 (s : Chars) : Option ((Chars × Option Chars) × Chars) := do
  let (_, s1) ← altLit [("app").data, ("router").data] s
  let s2 ← lit [('.')] s1
  let (m, s3) ← altLit RESTAnalyzer.methodsLower s2
  let s4 ← lit [('(')] (ws0 s3)
  let (p, s5) ← matchQuotedCapture (ws0 s4)
  pure ((m, some p), s5)

/-- Express pattern 1:
`\.route\s*\(\s*['"\x60]([^'"\x60]+)['"\x60]\s*\)` — a single capture group
(the path), which `parseEndpointsFromFile` reads as `match[1]`
(i.e. as the method). -/
def matchExpress1 (s : Chars) : Option ((Chars × Option Chars) × Chars) := do
  let s1 ← lit ((".route").data) s
  let s2 ← lit [('(')] (ws0 s1)
  let (p, s3) ← matchQuotedCapture (ws0 s2)
  let s4 ← lit [(')')] (ws0 s3)
  pure ((p, none), s4)

/-- Fastify pattern 0:
`fastify\.(get|post|put|patch|delete|options|head)\s*\(\s*['"\x60]([^'"\x60]+)['"\x60]`. -/
def matchFastify0 (s : Chars) : Option ((Chars × Option Chars) × Chars) := do
  let s1 ← lit (("fastify").data) s
  let s2 ← lit [('.')] s1
  let (m, s3) ← altLit RESTAnalyzer.methodsLower s2
  let s4 ← lit [('(')] (ws0 s3)
  let (p, s5) ← matchQuotedCapture (ws0 s4)
  pure ((m, some p), s5)

/-- Fastify pattern 1: `url\s*:\s*['"\x60]([^'"\x60]+)['"\x60]` — again a
single capture group read as the method. -/
def matchUrlProp (s : Chars) : Option ((Chars × Option Chars) × Chars) := do
  let s1 ← lit (("url").data) s
  let s2 ← lit [(':')] (ws0 s1)
  let (p, s3) ← matchQuotedCapture (ws0 s2)
  pure ((p, none), s3)

/-- Koa pattern:
`router\.(get|post|put|patch|delete|options|head)\s*\(\s*['"\x60]([^'"\x60]+)['"\x60]`. -/
def matchKoa (s : Chars) : Option ((Chars × Option Chars) × Chars) := do
  let s1 ← lit (("router").data) s
  let s2 ← lit [('.')] s1
  let (m, s3) ← altLit RESTAnalyzer.methodsLower s2
  let s4 ← lit [('(')] (ws0 s3)
  let (p, s5) ← matchQuotedCapture (ws0 s4)
  pure ((m, some p), s5)

/-- `normalizePath(path)` (NodeJSAnalyzer.ts:659-662):
`replace(/:([a-zA-Z_$][a-zA-Z0-9_$]*)/g, '\x7b$1\x7d')`. -/
def normalizePathAux : Nat → Chars → Chars
  | 0, s => s
  | _ + 1, [] => []
  | n + 1, ':' :: rest =>
    match rest with
    | c :: rest2 =>
      if isIdentStart c then
        let run := rest2.takeWhile isIdentChar
        '{' :: (c :: run ++ '}' :: normalizePathAux n (rest2.drop run.length))
      else ':' :: normalizePathAux n rest
    | [] => [':']
  | n + 1, c :: rest => c :: normalizePathAux n rest

def normalizePath (path : String) : String :=
  String.mk (normalizePathAux path.data.length path.data)

/-- Path-parameter regex of `extractParameters` (NodeJSAnalyzer.ts:620):
`:([a-zA-Z_$][a-zA-Z0-9_$]*)`. -/
def matchColonParam (s : Chars) : Option (Chars × Chars) :=
  match s with
  | ':' :: c :: rest =>
    if isIdentStart c then
      let run := rest.takeWhile isIdentChar
      some (c :: run, rest.drop run.length)
    else none
  | _ => none

/-- Broken query pattern 1 (NodeJSAnalyzer.ts:638):
`req\\.query\\.([a-zA-Z_$][a-zA-Z0-9_$]*)` — in the regex literal, `\\`
matches one literal backslash and the following unescaped `.` matches any
character except a newline. -/
def matchBrokenQuery1 (s : Chars) : Option (Chars × Chars) := do
  let s1 ← lit (("req").data) s
  match s1 with
  | '\\' :: d :: s2 =>
    if d = '\n' then none
    else do
      let s3 ← lit (("query").data) s2
      match s3 with
      | '\\' :: d2 :: s4 =>
        if d2 = '\n' then none
        else
          match s4 with
          | c :: rest =>
            if isIdentStart c then
              let run := rest.takeWhile isIdentChar
              some (c :: run, rest.drop run.length)
            else none
          | [] => none
      | _ => none
  | _ => none

/-- Broken query pattern 2 (NodeJSAnalyzer.ts:639):
`query\\.([a-zA-Z_$][a-zA-Z0-9_$]*)`. -/
def matchBrokenQuery2 (s : Chars) : Option (Chars × Chars) := do
  let s1 ← lit (("query").data) s
  match s1 with
  | '\\' :: d :: s2 =>
    if d = '\n' then none
    else
      match s2 with
      | c :: rest =>
        if isIdentStart c then
          let run := rest.takeWhile isIdentChar
          some (c :: run, rest.drop run.length)
        else none
      | [] => none
  | _ => none

/-- `extractParameters(path, content, position)` (NodeJSAnalyzer.ts:616-657):
path parameters from `:name` tokens, then query parameters scanned from the
±500-character window around the match with the two (broken) query
patterns, added only when the name is not already present. -/
def extractParameters (path content : String) (position : Nat) : List Parameter :=
  let pathParams : List Parameter :=
    (scan matchColonParam path.data).map fun hit =>
      { name := String.mk hit.val
        type := ("string")
        required := true
        loc := ("path") : Parameter }
  let contextStart := position - 500
  let contextEnd := min content.data.length (position + 500)
  let context := (content.data.drop contextStart).take (contextEnd - contextStart)
  let qnames :=
    ((scan matchBrokenQuery1 context).map fun hit => String.mk hit.val) ++
    ((scan matchBrokenQuery2 context).map fun hit => String.mk hit.val)
  qnames.foldl
    (fun ps n =>
      if ps.any (fun p => p.name = n) then ps
      else ps ++ [{ name := n, type := ("string"), required := false, loc := ("query") : Parameter }])
    pathParams

/-- `parseEndpointsFromFile(content, filename)` (NodeJSAnalyzer.ts:568-614):
the five patterns run in order; for each match, `match[1] || 'get'` is the
method and `match[2] || match[1]` the path; the endpoint is kept only when
the method is one of `httpMethods`. -/
def endpointsOfHits (filename content : String)
    (hits : List (ScanHit (Chars × Option Chars))) : List EndpointInfo :=
  hits.filterMap fun hit =>
    let m1 := String.mk hit.val.1
    let method := if m1 = "" then ("get") else m1
    let path := match hit.val.2 with
      | some p => if p.isEmpty then m1 else String.mk p
      | none => m1
    if httpMethods.contains (toLowerStr method) then
      some { path := normalizePath path
             method := toUpperStr method
             description := some (("Endpoint from ") ++ filename)
             parameters := extractParameters path content hit.idx : EndpointInfo }
    else none

def parseEndpointsFromFile (content filename : String) : List EndpointInfo :=
  let cs := content.data
  endpointsOfHits filename content (scan matchExpress0 cs) ++
  endpointsOfHits filename content (scan matchExpress1 cs) ++
  endpointsOfHits filename content (scan matchFastify0 cs) ++
  endpointsOfHits filename content (scan matchUrlProp cs) ++
  endpointsOfHits filename content (scan matchKoa cs)

end NodeJSAnalyzer

namespace TemplateManager

/-- `charAt(0).toUpperCase() + slice(1).toLowerCase()` on a character
list; the empty list gives the empty list, as in JavaScript. -/
def capitalizeLower : Chars → Chars
  | [] => []
  | c :: cs => Char.toUpper c :: cs.map Char.toLower

/-- The `toolName` Handlebars helper (TemplateManager.ts:86-92): split the
path on `/`, drop empty parts, strip `{`/`}`/`:` and lowercase each part,
then `method.toLowerCase() ++ "_" ++ parts.join("_")`. -/
def toolName (method path : String) : String :=
  let pathParts := (splitOnChar '/' path.data).filter (fun p => !p.isEmpty)
  let cleanParts := pathParts.map (fun p => jsLower (p.filter (fun c => !isParamChar c)))
  String.mk (jsLower method.data ++ '_' :: List.intercalate [('_')] cleanParts)

/-- The `safeFileName` Handlebars helper (TemplateManager.ts:72-84): falsy
method or path gives the literal `unknownTool`; otherwise parts are split,
trimmed, stripped of `{`/`}`/`:`, capitalized, empties dropped, and
concatenated after the lowercased method. -/
def safeFileName (method path : String) : String :=
  if method = "" || path = "" then ("unknownTool")
  else
    let pathParts := (splitOnChar '/' path.data).filter
      (fun p => !p.isEmpty && !(jsTrim p).isEmpty)
    let cleanParts := (pathParts.map
      (fun p => capitalizeLower (jsTrim (p.filter (fun c => !isParamChar c))))).filter
      (fun p => !p.isEmpty)
    String.mk (jsLower method.data ++ cleanParts.flatten)

/-- The `methodName` Handlebars helper (TemplateManager.ts:94-104):
`handle` ++ capitalized method ++ PascalCase path parts. -/
def methodName (method path : String) : String :=
  let pathParts := (splitOnChar '/' path.data).filter (fun p => !p.isEmpty)
  let cleanParts := pathParts.map (fun p => capitalizeLower (p.filter (fun c => !isParamChar c)))
  String.mk (("handle").data ++ capitalizeLower method.data ++ cleanParts.flatten)

end TemplateManager

/-! ## Generation pipeline (`src/generator/MCPGenerator.ts`)

`generate` is embedded as a pure function from its inputs to the list of
filesystem effects it performs, in program order.  Writing a file is
recorded together with the data object handed to the template that renders
it (`GenData` mirrors the object literals passed to each template), since
the rendered text is a function of that data.  In dry-run mode the code
only logs the intended path; this is recorded as a `logDir`/`logWrite`
effect carrying the path. -/

namespace MCPGenerator

/-- The data object passed to each template render, one constructor per
`getTemplate(...)` call site in MCPGenerator.ts.  `envFile` carries the
string produced directly by `generateEnvFile`. -/
inductive GenData where
  | serverData (config : MCPConfig) (projectInfo : ProjectInfo) (endpoints : List EndpointInfo)
  | packageData (config : MCPConfig) (projectInfo : ProjectInfo)
  | tsconfigData (config : MCPConfig)
  | toolData (endpoint : EndpointInfo) (projectInfo : ProjectInfo) (config : MCPConfig)
  | toolsIndexData (endpoints : List EndpointInfo) (config : MCPConfig)
  | envFile (content : String)
  | readmeData (config : MCPConfig) (projectInfo : ProjectInfo) (endpoints : List EndpointInfo)
  | testSetupData (config : MCPConfig) (projectInfo : ProjectInfo)
  | toolTestData (endpoint : EndpointInfo) (config : MCPConfig)
  | docsData (config : MCPConfig) (projectInfo : ProjectInfo) (endpoints : List EndpointInfo)
  deriving DecidableEq

/-- One filesystem effect of a generation run. -/
inductive FsAction where
  | ensureDir (path : String)
  | write (path : String) (data : GenData)
  | logDir (path : String)
  | logWrite (path : String)
  deriving DecidableEq

/-- `path.join(a, b)` for the slash-free relative segments used here. -/
def joinPath (a b : String) : String := a ++ ("/") ++ b

/-- `path.dirname`. -/
def dirname (p : String) : String :=
  String.intercalate ("/") (((p.splitOn ("/")).dropLast).map id)

/-- `writeFile(filePath, content, options)` (MCPGenerator.ts:284-297):
dry-run logs the path; otherwise the parent directory is ensured and the
file written. -/
def writeFile (filePath : String) (data : GenData) (dryRun : Bool) : List FsAction :=
  if dryRun then [FsAction.logWrite filePath]
  else [FsAction.ensureDir (dirname filePath), FsAction.write filePath data]

/-- `createDirectoryStructure` (MCPGenerator.ts:63-88). -/
def createDirectoryStructure (cfg : MCPConfig) (outputPath : String) (dryRun : Bool) :
    List FsAction :=
  let dirs := [("src"), ("src/tools"), ("src/types"), ("src/utils"), ("dist")] ++
    (if cfg.includeTests then [("tests"), ("tests/tools")] else []) ++
    (if cfg.includeDocumentation then [("docs")] else [])
  dirs.map fun d =>
    if dryRun then FsAction.logDir (joinPath outputPath d)
    else FsAction.ensureDir (joinPath outputPath d)

/-- `generateToolName(endpoint)` (MCPGenerator.ts:259-268). -/
def generateToolName (e : EndpointInfo) : String :=
  let pathParts := (splitOnChar '/' e.path.data).filter (fun p => !p.isEmpty)
  let cleanParts := pathParts.map (fun p => TemplateManager.capitalizeLower (p.filter (fun c => !isParamChar c)))
  String.mk (jsLower e.method.data ++ cleanParts.flatten)

/-- `generateEnvFile(projectInfo)` (MCPGenerator.ts:270-282).  The TS
string literals contain the two characters backslash and `n` (`'\\n'`),
which is mirrored here. -/
def generateEnvFile (pi : ProjectInfo) : String :=
  let header := ("# Environment Configuration\\n\\n")
  let withBase := header ++ (match pi.baseUrl with
    | some u => ("API_BASE_URL=") ++ u ++ ("\\n")
    | none => (""))
  withBase ++ ("API_KEY=your_api_key_here\\n") ++ ("PORT=3000\\n") ++ ("LOG_LEVEL=info\\n")

/-- The endpoints surviving the exclusion filter (MCPGenerator.ts:141-144):
`!config.excludeEndpoints?.includes(`method:path`)`. -/
def filteredEndpoints (cfg : MCPConfig) (pi : ProjectInfo) : List EndpointInfo :=
  pi.endpoints.filter (fun e => !(decide (endpointKey e ∈ cfg.excludeEndpoints)))

/-- `generateServerFiles` (MCPGenerator.ts:90-134). -/
def generateServerFiles (cfg : MCPConfig) (pi : ProjectInfo) (out : String) (dryRun : Bool) :
    List FsAction :=
  writeFile (joinPath (joinPath out ("src")) ("index.ts"))
    (GenData.serverData cfg pi pi.endpoints) dryRun ++
  writeFile (joinPath out ("package.json")) (GenData.packageData cfg pi) dryRun ++
  (if cfg.outputFormat = ("typescript") then
    writeFile (joinPath out ("tsconfig.json")) (GenData.tsconfigData cfg) dryRun
  else [])

/-- The path of the tool file generated for one endpoint. -/
def toolFilePath (out : String) (e : EndpointInfo) : String :=
  joinPath (joinPath (joinPath out ("src")) ("tools")) (generateToolName e ++ (".ts"))

/-- `generateToolFiles` (MCPGenerator.ts:136-176): one tool file per
endpoint surviving the exclusion filter, then the tools index rendered
from the filtered list. -/
def generateToolFiles (cfg : MCPConfig) (pi : ProjectInfo) (out : String) (dryRun : Bool) :
    List FsAction :=
  ((filteredEndpoints cfg pi).flatMap fun e =>
    writeFile (toolFilePath out e) (GenData.toolData e pi cfg) dryRun) ++
  writeFile (joinPath (joinPath (joinPath out ("src")) ("tools")) ("index.ts"))
    (GenData.toolsIndexData (filteredEndpoints cfg pi) cfg) dryRun

/-- `generateConfigFiles` (MCPGenerator.ts:178-203): `.env.example` and the
README, the latter rendered from the unfiltered endpoint list. -/
def generateConfigFiles (cfg : MCPConfig) (pi : ProjectInfo) (out : String) (dryRun : Bool) :
    List FsAction :=
  writeFile (joinPath out (".env.example")) (GenData.envFile (generateEnvFile pi)) dryRun ++
  writeFile (joinPath out ("README.md")) (GenData.readmeData cfg pi pi.endpoints) dryRun

/-- The path of the test file generated for one endpoint. -/
def testFilePath (out : String) (e : EndpointInfo) : String :=
  joinPath (joinPath (joinPath out ("tests")) ("tools")) (generateToolName e ++ (".test.ts"))

/-- `generateTestFiles` (MCPGenerator.ts:205-239): test setup plus one test
file per endpoint of the *unfiltered* `projectInfo.endpoints`. -/
def generateTestFiles (cfg : MCPConfig) (pi : ProjectInfo) (out : String) (dryRun : Bool) :
    List FsAction :=
  writeFile (joinPath (joinPath out ("tests")) ("setup.ts"))
    (GenData.testSetupData cfg pi) dryRun ++
  (pi.endpoints.flatMap fun e =>
    writeFile (testFilePath out e) (GenData.toolTestData e cfg) dryRun)

/-- `generateDocumentation` (MCPGenerator.ts:241-257). -/
def generateDocumentation (cfg : MCPConfig) (pi : ProjectInfo) (out : String) (dryRun : Bool) :
    List FsAction :=
  writeFile (joinPath (joinPath out ("docs")) ("API.md"))
    (GenData.docsData cfg pi pi.endpoints) dryRun

/-- `generate(projectInfo, outputPath, dryRun)` (MCPGenerator.ts:15-61). -/
def generate (cfg : MCPConfig) (pi : ProjectInfo) (outputPath : String) (dryRun : Bool) :
    List FsAction :=
  createDirectoryStructure cfg outputPath dryRun ++
  generateServerFiles cfg pi outputPath dryRun ++
  generateToolFiles cfg pi outputPath dryRun ++
  generateConfigFiles cfg pi outputPath dryRun ++
  (if cfg.includeTests then generateTestFiles cfg pi outputPath dryRun else []) ++
  (if cfg.includeDocumentation then generateDocumentation cfg pi outputPath dryRun else [])

/-- Is the effect a filesystem mutation (directory creation or file
write)? -/
def isMutation : FsAction → Bool
  | FsAction.ensureDir _ => true
  | FsAction.write _ _ => true
  | FsAction.logDir _ => false
  | FsAction.logWrite _ => false

/-- Paths of the files actually written by a run. -/
def writtenPaths (acts : List FsAction) : List String :=
  acts.filterMap fun a =>
    match a with
    | FsAction.write p _ => some p
    | _ => none

/-- Paths reported as would-be writes by a dry run. -/
def plannedWritePaths (acts : List FsAction) : List String :=
  acts.filterMap fun a =>
    match a with
    | FsAction.logWrite p => some p
    | _ => none

/-- The (path, template data) pairs of all file writes of a run. -/
def writesOf (acts : List FsAction) : List (String × GenData) :=
  acts.filterMap fun a =>
    match a with
    | FsAction.write p d => some (p, d)
    | _ => none

end MCPGenerator

/-! ## OpenAPI analyzer and project-type detection

`OpenAPIAnalyzer.ts` and `ProjectAnalyzer.ts` read the project through
`glob`; the project is modelled as the list of its files (directory
segments, base name, extension without the leading dot, raw content), and
each glob pattern as the filter it denotes on such files. -/

namespace OpenAPIAnalyzer

structure SrcFile where
  dirs : List String
  base : String
  ext : String
  content : String
  deriving DecidableEq

structure Project where
  files : List SrcFile
  deriving DecidableEq

/-- The glob `**/{swagger,openapi}.{json,yaml,yml}` with
`ignore: ['node_modules/**']`, used identically by
`OpenAPIAnalyzer.analyze` and `ProjectAnalyzer.detectProjectType`. -/
def matchesOpenApiGlob (f : SrcFile) : Bool :=
  decide ((f.base = ("swagger") ∨ f.base = ("openapi")) ∧
    (f.ext = ("json") ∨ f.ext = ("yaml") ∨ f.ext = ("yml")) ∧
    ("node_modules") ∉ f.dirs)

def openApiGlob (p : Project) : List SrcFile := p.files.filter matchesOpenApiGlob

/-- The parsed JSON value of a `.json` spec.  `JSON.parse` is an external
library call; its successful result is kept uninterpreted (no claim
depends on the parsed structure, only on which extensions can reach it). -/
structure OpenApiSpecObj where
  raw : String
  deriving DecidableEq

/-- `parseOpenAPISpec(filePath)` (OpenAPIAnalyzer.ts:34-46): `.json` is
parsed, `.yaml`/`.yml` throws the fixed YAML error, anything else throws
the unsupported-format error.  `path.extname(...).toLowerCase()` is the
lowercased extension. -/
def parseOpenAPISpec (f : SrcFile) : Except String OpenApiSpecObj :=
  let ext := toLowerStr f.ext
  if ext = ("json") then Except.ok { raw := f.content }
  else if ext = ("yaml") ∨ ext = ("yml") then
    Except.error ("YAML parsing not implemented. Please convert to JSON format.")
  else Except.error (("Unsupported file format: .") ++ ext)

/-- `OpenAPIAnalyzer.analyze(projectPath)` (OpenAPIAnalyzer.ts:7-32): no
spec file is an error; otherwise the *first* glob result is parsed and a
ProjectInfo assembled.  The fields read out of the parsed spec
(title/version/description/servers and the per-path operations) are
functions of the uninterpreted JSON value and are left at their defaults
here; every claim about this analyzer concerns only the error path. -/
def analyze (p : Project) : Except String ProjectInfo :=
  match openApiGlob p with
  | [] => Except.error ("No OpenAPI/Swagger files found")
  | specFile :: _ =>
    match parseOpenAPISpec specFile with
    | Except.error e => Except.error e
    | Except.ok spec =>
      Except.ok { name := spec.raw, type := ("openapi"), rootPath := (""), endpoints := [] }

end OpenAPIAnalyzer

namespace ProjectAnalyzer

open OpenAPIAnalyzer

/-- The glob `**/{api,routes,controllers}/**/*.{js,ts,py,java}` with
`ignore: ['node_modules/**']`. -/
def matchesRestApiGlob (f : SrcFile) : Bool :=
  decide ((("api") ∈ f.dirs ∨ ("routes") ∈ f.dirs ∨ ("controllers") ∈ f.dirs) ∧
    (f.ext = ("js") ∨ f.ext = ("ts") ∨ f.ext = ("py") ∨ f.ext = ("java")) ∧
    ("node_modules") ∉ f.dirs)

/-- The glob `**/*.{js,ts}` with `ignore: ['node_modules/**']`. -/
def matchesJsTsGlob (f : SrcFile) : Bool :=
  decide ((f.ext = ("js") ∨ f.ext = ("ts")) ∧ ("node_modules") ∉ f.dirs)

/-- `fs.pathExists(path.join(projectPath, 'package.json'))`. -/
def hasPackageJson (p : Project) : Bool :=
  p.files.any fun f =>
    decide (f.dirs = [] ∧ f.base = ("package") ∧ f.ext = ("json"))

/-- `detectProjectType(projectPath)` (ProjectAnalyzer.ts:38-72). -/
def detectProjectType (p : Project) : String :=
  if 0 < (openApiGlob p).length then ("openapi")
  else if hasPackageJson p then ("nodejs")
  else if 0 < (p.files.filter matchesRestApiGlob).length then ("rest-api")
  else if 0 < (p.files.filter matchesJsTsGlob).length then ("nodejs")
  else ("rest-api")

end ProjectAnalyzer

/-! ## Concrete inputs used by the theorems below -/

/-- An Express registration with a `:id` path parameter. -/
def jsUsersContent : String := "app.get(\"/users/:id\", handler)"

/-- An Express registration whose path contains the letters `GET`
(`/BUDGETS`). -/
def jsDeleteContent : String := "app.delete(\"/budgets\", handler)"

/-- A Rails route for the same path. -/
def rubyDeleteContent : String := "delete \"/budgets\", to: \"budgets#destroy\""

/-- A Gin route for the same path. -/
def goDeleteContent : String := "r.DELETE(\"/budgets\", handler)"

/-- A Laravel route for the same path. -/
def phpDeleteContent : String := "Route::delete(\"/budgets\", fn)"

/-- A Next.js API handler checking `req.method` against GET and PUT. -/
def nextJsContent : String :=
  "export default function handler(req, res) \x7b\n  if (req.method === \"GET\") \x7b return res.json(1); \x7d\n  if (req.method === \"PUT\") \x7b return res.json(2); \x7d\n\x7d\n"

/-- An Express route whose handler dereferences `req.query.limit`. -/
def queryContent : String :=
  "app.get(\"/users\", (req, res) => \x7b const limit = req.query.limit; res.json(limit); \x7d);"

/-- A Django REST Framework ViewSet declaration. -/
def drfContent : String := "class OrderViewSet(ModelViewSet):\n    pass\n"

/-- An endpoint excluded by `cfgEx` below. -/
def eEx : EndpointInfo := { path := ("/users"), method := ("GET") }

/-- A generation config excluding `GET:/users`, with tests enabled. -/
def cfgEx : MCPConfig :=
  { serverName := ("srv"), description := ("d"), version := ("1.0.0")
    outputFormat := ("typescript"), includeTests := true
    includeDocumentation := false, excludeEndpoints := [("GET:/users")] }

/-- A project whose only endpoint is the excluded one. -/
def piEx : ProjectInfo :=
  { name := ("proj"), type := ("nodejs"), rootPath := ("/proj"), endpoints := [eEx] }

/-- A project whose only OpenAPI spec file is a `.yaml`. -/
def pYaml : OpenAPIAnalyzer.Project :=
  { files := [{ dirs := [], base := ("openapi"), ext := ("yaml"),
                content := ("openapi: 3.0.0") }] }

/-! ## Theorems -/

/-! ### Aggregation (claim C3) -/

theorem dedupGo_sublist (l : List EndpointInfo) :
    ∀ seen, (dedupGo seen l).Sublist l := by
  induction l with
  | nil => intro seen; simp [dedupGo]
  | cons e rest ih =>
    intro seen
    by_cases h : endpointKey e ∈ seen
    · simpa [dedupGo, h] using (ih seen).cons e
    · simpa [dedupGo, h] using (ih (endpointKey e :: seen)).cons₂ e

theorem dedupGo_not_seen (l : List EndpointInfo) :
    ∀ seen, ∀ e ∈ dedupGo seen l, endpointKey e ∉ seen := by
  induction l with
  | nil => intro seen e he; simp [dedupGo] at he
  | cons a rest ih =>
    intro seen e he
    by_cases h : endpointKey a ∈ seen
    · simp only [dedupGo, if_pos h] at he
      exact ih seen e he
    · simp only [dedupGo, if_neg h] at he
      rcases List.mem_cons.mp he with he | he
      · subst he; exact h
      · intro hc
        exact ih (endpointKey a :: seen) e he (List.mem_cons_of_mem _ hc)

theorem dedupGo_pairwise_keys (l : List EndpointInfo) :
    ∀ seen, (dedupGo seen l).Pairwise (fun a b => endpointKey a ≠ endpointKey b) := by
  induction l with
  | nil => intro seen; simp [dedupGo]
  | cons a rest ih =>
    intro seen
    by_cases h : endpointKey a ∈ seen
    · simpa [dedupGo, h] using ih seen
    · simp only [dedupGo, if_neg h]
      refine List.Pairwise.cons ?_ (ih (endpointKey a :: seen))
      intro b hb hkey
      have := dedupGo_not_seen rest (endpointKey a :: seen) b hb
      exact this (hkey ▸ List.mem_cons_self _ _)

theorem dedupGo_find (l : List EndpointInfo) :
    ∀ seen k, k ∉ seen →
      (dedupGo seen l).find? (fun e => endpointKey e == k) =
        l.find? (fun e => endpointKey e == k) := by
  induction l with
  | nil => intro seen k _; rfl
  | cons a rest ih =>
    intro seen k hk
    by_cases h : endpointKey a ∈ seen
    · have hne : (endpointKey a == k) = false := by
        simp only [beq_eq_false_iff_ne]
        intro he; exact hk (he ▸ h)
      simp only [dedupGo, if_pos h, List.find?_cons, hne]
      exact ih seen k hk
    · simp only [dedupGo, if_neg h, List.find?_cons]
      by_cases he : endpointKey a == k
      · simp [he]
      · simp only [he]
        refine ih (endpointKey a :: seen) k ?_
        intro hc
        rcases List.mem_cons.mp hc with hc | hc
        · exact he (by simp [hc])
        · exact hk hc

/-- Claim C3: the aggregated endpoint list is pairwise unique on the pair
(method, path); the survivor for each duplicated `METHOD:path` key is the
first occurrence in scan order; the relative order of the survivors (a
sublist of the input) is their first-discovery order. -/
theorem claim3_dedup_unique_first_wins (l : List EndpointInfo) :
    (deduplicateEndpoints l).Pairwise
        (fun e1 e2 => (e1.method, e1.path) ≠ (e2.method, e2.path)) ∧
    (∀ k : String,
      (deduplicateEndpoints l).find? (fun e => endpointKey e == k) =
        l.find? (fun e => endpointKey e == k)) ∧
    (deduplicateEndpoints l).Sublist l := by
  refine ⟨?_, fun k => dedupGo_find l [] k (by simp), dedupGo_sublist l []⟩
  refine (dedupGo_pairwise_keys l []).imp ?_
  intro a b hne hpair
  apply hne
  have hm : a.method = b.method := congrArg Prod.fst hpair
  have hp : a.path = b.path := congrArg Prod.snd hpair
  simp [endpointKey, hm, hp]

/-! ### Generation pipeline (claims C1 and C2) -/

namespace MCPGenerator

theorem writtenPaths_append (a b : List FsAction) :
    writtenPaths (a ++ b) = writtenPaths a ++ writtenPaths b :=
  List.filterMap_append a b _

theorem plannedWritePaths_append (a b : List FsAction) :
    plannedWritePaths (a ++ b) = plannedWritePaths a ++ plannedWritePaths b :=
  List.filterMap_append a b _

theorem writesOf_append (a b : List FsAction) :
    writesOf (a ++ b) = writesOf a ++ writesOf b :=
  List.filterMap_append a b _

theorem writtenPaths_writeFile_false (p : String) (d : GenData) :
    writtenPaths (writeFile p d false) = [p] := rfl

theorem plannedWritePaths_writeFile_true (p : String) (d : GenData) :
    plannedWritePaths (writeFile p d true) = [p] := rfl

theorem mutations_writeFile_true (p : String) (d : GenData) :
    (writeFile p d true).filter isMutation = [] := rfl

theorem writesOf_writeFile_false (p : String) (d : GenData) :
    writesOf (writeFile p d false) = [(p, d)] := rfl

theorem writesOf_writeFile_true (p : String) (d : GenData) :
    writesOf (writeFile p d true) = [] := rfl

theorem writtenPaths_flatMap_writeFile (l : List EndpointInfo)
    (f : EndpointInfo → String) (g : EndpointInfo → GenData) :
    writtenPaths (l.flatMap fun e => writeFile (f e) (g e) false) = l.map f := by
  induction l with
  | nil => rfl
  | cons a t ih => simp [List.flatMap_cons, writtenPaths_append, ih, writtenPaths_writeFile_false]

theorem plannedWritePaths_flatMap_writeFile (l : List EndpointInfo)
    (f : EndpointInfo → String) (g : EndpointInfo → GenData) :
    plannedWritePaths (l.flatMap fun e => writeFile (f e) (g e) true) = l.map f := by
  induction l with
  | nil => rfl
  | cons a t ih =>
    simp [List.flatMap_cons, plannedWritePaths_append, ih, plannedWritePaths_writeFile_true]

theorem mutations_flatMap_writeFile (l : List EndpointInfo)
    (f : EndpointInfo → String) (g : EndpointInfo → GenData) :
    (l.flatMap fun e => writeFile (f e) (g e) true).filter isMutation = [] := by
  induction l with
  | nil => rfl
  | cons a t ih => simp [List.flatMap_cons, List.filter_append, ih, mutations_writeFile_true]

theorem writesOf_flatMap_writeFile (l : List EndpointInfo)
    (f : EndpointInfo → String) (g : EndpointInfo → GenData) :
    writesOf (l.flatMap fun e => writeFile (f e) (g e) false) =
      l.map fun e => (f e, g e) := by
  induction l with
  | nil => rfl
  | cons a t ih => simp [List.flatMap_cons, writesOf_append, ih, writesOf_writeFile_false]

theorem writtenPaths_dirs (l : List String) (f : String → String) (b : Bool) :
    writtenPaths (l.map fun d =>
      if b then FsAction.logDir (f d) else FsAction.ensureDir (f d)) = [] := by
  induction l with
  | nil => rfl
  | cons a t ih => cases b <;> simp_all [writtenPaths]

theorem plannedWritePaths_dirs (l : List String) (f : String → String) (b : Bool) :
    plannedWritePaths (l.map fun d =>
      if b then FsAction.logDir (f d) else FsAction.ensureDir (f d)) = [] := by
  induction l with
  | nil => rfl
  | cons a t ih => cases b <;> simp_all [plannedWritePaths]

theorem writesOf_dirs (l : List String) (f : String → String) (b : Bool) :
    writesOf (l.map fun d =>
      if b then FsAction.logDir (f d) else FsAction.ensureDir (f d)) = [] := by
  induction l with
  | nil => rfl
  | cons a t ih => cases b <;> simp_all [writesOf]

theorem mutations_dirs_true (l : List String) (f : String → String) :
    ((l.map fun d =>
      if true then FsAction.logDir (f d) else FsAction.ensureDir (f d)).filter isMutation) = [] := by
  induction l with
  | nil => rfl
  | cons a t ih => simp_all [isMutation]

end MCPGenerator

/-- Claim C2: for every projectInfo, config and outputPath, a dry run
performs no filesystem mutation (no `ensureDir`, no file write), and the
list of paths it reports as would-be writes is exactly the list of paths a
real run writes. -/
theorem claim2_dry_run_frame (cfg : MCPConfig) (pi : ProjectInfo) (out : String) :
    (MCPGenerator.generate cfg pi out true).filter MCPGenerator.isMutation = [] ∧
    MCPGenerator.writtenPaths (MCPGenerator.generate cfg pi out false) =
      MCPGenerator.plannedWritePaths (MCPGenerator.generate cfg pi out true) := by
  constructor
  · simp only [MCPGenerator.generate, MCPGenerator.createDirectoryStructure,
      MCPGenerator.generateServerFiles, MCPGenerator.generateToolFiles,
      MCPGenerator.generateConfigFiles, MCPGenerator.generateTestFiles,
      MCPGenerator.generateDocumentation, List.filter_append,
      MCPGenerator.mutations_writeFile_true, MCPGenerator.mutations_flatMap_writeFile,
      MCPGenerator.mutations_dirs_true]
    cases cfg.includeTests <;> cases cfg.includeDocumentation <;>
      by_cases h : cfg.outputFormat = ("typescript") <;>
      simp [h, List.filter_append, MCPGenerator.mutations_writeFile_true,
        MCPGenerator.mutations_flatMap_writeFile, MCPGenerator.isMutation]
  · simp only [MCPGenerator.generate, MCPGenerator.createDirectoryStructure,
      MCPGenerator.generateServerFiles, MCPGenerator.generateToolFiles,
      MCPGenerator.generateConfigFiles, MCPGenerator.generateTestFiles,
      MCPGenerator.generateDocumentation, MCPGenerator.writtenPaths_append,
      MCPGenerator.plannedWritePaths_append, MCPGenerator.writtenPaths_writeFile_false,
      MCPGenerator.plannedWritePaths_writeFile_true, MCPGenerator.writtenPaths_dirs,
      MCPGenerator.plannedWritePaths_dirs, MCPGenerator.writtenPaths_flatMap_writeFile,
      MCPGenerator.plannedWritePaths_flatMap_writeFile]
    cases cfg.includeTests <;> cases cfg.includeDocumentation <;>
      by_cases h : cfg.outputFormat = ("typescript") <;>
      simp [h, MCPGenerator.writtenPaths_append, MCPGenerator.plannedWritePaths_append,
        MCPGenerator.writtenPaths_writeFile_false, MCPGenerator.plannedWritePaths_writeFile_true,
        MCPGenerator.writtenPaths_flatMap_writeFile,
        MCPGenerator.plannedWritePaths_flatMap_writeFile, MCPGenerator.writeFile,
        MCPGenerator.writtenPaths, MCPGenerator.plannedWritePaths, List.filterMap_cons,
        List.filterMap_flatMap]

namespace MCPGenerator

theorem write_mem_writeFile (p q : String) (d d' : GenData) (b : Bool) :
    FsAction.write p d ∈ writeFile q d' b ↔ b = false ∧ p = q ∧ d = d' := by
  cases b <;> simp [writeFile]

theorem excluded_not_in_filtered (cfg : MCPConfig) (pi : ProjectInfo)
    (e : EndpointInfo) (hx : endpointKey e ∈ cfg.excludeEndpoints) :
    e ∉ filteredEndpoints cfg pi := by
  intro hmem
  have := (List.mem_filter.mp hmem).2
  simp [hx] at this

theorem write_not_mem_dirs (cfg : MCPConfig) (out : String) (b : Bool)
    (p : String) (d : GenData) :
    FsAction.write p d ∉ createDirectoryStructure cfg out b := by
  intro hmem
  rcases List.mem_map.mp hmem with ⟨dir, _, hd⟩
  cases b <;> simp at hd

end MCPGenerator

/-- Claim C1, counterexample: with `GET:/users` excluded and tests enabled,
a real generation run still writes a per-endpoint test file for the
excluded endpoint, and the excluded endpoint is part of the data rendered
into the server entrypoint and the README. -/
theorem claim1_counterexample :
    endpointKey eEx ∈ cfgEx.excludeEndpoints ∧
    MCPGenerator.FsAction.write ("out/tests/tools/getUsers.test.ts")
        (MCPGenerator.GenData.toolTestData eEx cfgEx) ∈
      MCPGenerator.generate cfgEx piEx ("out") false ∧
    MCPGenerator.FsAction.write ("out/src/index.ts")
        (MCPGenerator.GenData.serverData cfgEx piEx [eEx]) ∈
      MCPGenerator.generate cfgEx piEx ("out") false ∧
    MCPGenerator.FsAction.write ("out/README.md")
        (MCPGenerator.GenData.readmeData cfgEx piEx [eEx]) ∈
      MCPGenerator.generate cfgEx piEx ("out") false := by
  decide

/-- Claim C1 as amended: an endpoint whose exact `METHOD:path` key is in
`excludeEndpoints` gets no per-endpoint tool file and does not occur in the
endpoint list rendered into the tools index; it does, however, remain in
the data for the server entrypoint, README and docs templates and still
receives a per-endpoint test file (see the counterexample). -/
theorem claim1_exclusion_amended (cfg : MCPConfig) (pi : ProjectInfo)
    (out : String) (dryRun : Bool) (e : EndpointInfo)
    (hx : endpointKey e ∈ cfg.excludeEndpoints) :
    (∀ (p : String) (piX : ProjectInfo) (cfgX : MCPConfig),
      MCPGenerator.FsAction.write p (MCPGenerator.GenData.toolData e piX cfgX) ∉
        MCPGenerator.generate cfg pi out dryRun) ∧
    (∀ (p : String) (l : List EndpointInfo) (cfgX : MCPConfig),
      MCPGenerator.FsAction.write p (MCPGenerator.GenData.toolsIndexData l cfgX) ∈
        MCPGenerator.generate cfg pi out dryRun → e ∉ l) := by
  constructor
  · intro p piX cfgX hmem
    simp only [MCPGenerator.generate, List.mem_append] at hmem
    rcases hmem with ((((h | h) | h) | h) | h) | h
    · exact MCPGenerator.write_not_mem_dirs cfg out dryRun _ _ h
    · simp only [MCPGenerator.generateServerFiles, List.mem_append] at h
      rcases h with (h | h) | h
      · simp [MCPGenerator.write_mem_writeFile] at h
      · simp [MCPGenerator.write_mem_writeFile] at h
      · rcases hif : decide (cfg.outputFormat = ("typescript")) with _ | _ <;>
          simp_all [MCPGenerator.write_mem_writeFile]
    · simp only [MCPGenerator.generateToolFiles, List.mem_append] at h
      rcases h with h | h
      · rcases List.mem_flatMap.mp h with ⟨e2, he2, hw⟩
        rcases (MCPGenerator.write_mem_writeFile _ _ _ _ _).mp hw with ⟨_, _, hd⟩
        cases hd
        exact MCPGenerator.excluded_not_in_filtered cfg pi e hx he2
      · simp [MCPGenerator.write_mem_writeFile] at h
    · simp only [MCPGenerator.generateConfigFiles, List.mem_append] at h
      rcases h with h | h <;> simp [MCPGenerator.write_mem_writeFile] at h
    · rcases hT : cfg.includeTests with _ | _
      · simp [hT] at h
      · simp only [hT, if_true, MCPGenerator.generateTestFiles, List.mem_append] at h
        rcases h with h | h
        · simp [MCPGenerator.write_mem_writeFile] at h
        · rcases List.mem_flatMap.mp h with ⟨e2, _, hw⟩
          simp [MCPGenerator.write_mem_writeFile] at hw
    · rcases hD : cfg.includeDocumentation with _ | _
      · simp [hD] at h
      · simp only [hD, if_true, MCPGenerator.generateDocumentation] at h
        simp [MCPGenerator.write_mem_writeFile] at h
  · intro p l cfgX hmem hl
    simp only [MCPGenerator.generate, List.mem_append] at hmem
    rcases hmem with ((((h | h) | h) | h) | h) | h
    · exact MCPGenerator.write_not_mem_dirs cfg out dryRun _ _ h
    · simp only [MCPGenerator.generateServerFiles, List.mem_append] at h
      rcases h with (h | h) | h
      · simp [MCPGenerator.write_mem_writeFile] at h
      · simp [MCPGenerator.write_mem_writeFile] at h
      · rcases hif : decide (cfg.outputFormat = ("typescript")) with _ | _ <;>
          simp_all [MCPGenerator.write_mem_writeFile]
    · simp only [MCPGenerator.generateToolFiles, List.mem_append] at h
      rcases h with h | h
      · rcases List.mem_flatMap.mp h with ⟨e2, _, hw⟩
        simp [MCPGenerator.write_mem_writeFile] at hw
      · rcases (MCPGenerator.write_mem_writeFile _ _ _ _ _).mp h with ⟨_, _, hd⟩
        have hlf : l = MCPGenerator.filteredEndpoints cfg pi := by
          cases hd; rfl
        exact MCPGenerator.excluded_not_in_filtered cfg pi e hx (hlf ▸ hl)
    · simp only [MCPGenerator.generateConfigFiles, List.mem_append] at h
      rcases h with h | h <;> simp [MCPGenerator.write_mem_writeFile] at h
    · rcases hT : cfg.includeTests with _ | _
      · simp [hT] at h
      · simp only [hT, if_true, MCPGenerator.generateTestFiles, List.mem_append] at h
        rcases h with h | h
        · simp [MCPGenerator.write_mem_writeFile] at h
        · rcases List.mem_flatMap.mp h with ⟨e2, _, hw⟩
          simp [MCPGenerator.write_mem_writeFile] at hw
    · rcases hD : cfg.includeDocumentation with _ | _
      · simp [hD] at h
      · simp only [hD, if_true, MCPGenerator.generateDocumentation] at h
        simp [MCPGenerator.write_mem_writeFile] at h

/-- Witness for the amended claim C1 at a concrete input: the hypothesis
`GET:/users ∈ excludeEndpoints` holds for `cfgEx`, and no tool file for the
excluded endpoint is written. -/
theorem claim1_exclusion_amended_witness :
    MCPGenerator.FsAction.write ("out/src/tools/getUsers.ts")
        (MCPGenerator.GenData.toolData eEx piEx cfgEx) ∉
      MCPGenerator.generate cfgEx piEx ("out") false :=
  (claim1_exclusion_amended cfgEx piEx ("out") false eEx (by decide)).1
    ("out/src/tools/getUsers.ts") piEx cfgEx

/-! ### Path normalization and method inference (claims C4, C5, C6, C8, C9) -/

/-- Claim C4, counterexample: in rest-api mode the Express registration
`app.get("/users/:id", handler)` yields the endpoint path `/users/:id` —
the `:id` segment is *not* rewritten to `{id}` by
`RESTAnalyzer.extractJavaScriptEndpoints`. -/
theorem claim4_counterexample :
    (RESTAnalyzer.extractJavaScriptEndpoints jsUsersContent ("routes/users.js")).map
        (fun e => e.path) = [("/users/:id")] ∧
    (("/users/:id") : String) ≠ ("/users/{id}") := by
  decide

/-- Claim C4 as amended: for `app.get("/users/:id", handler)` the nodejs
analyzer produces `{GET, /users/{id}}` with the required string path
parameter `id`, as claimed; the rest-api analyzer produces the same method
and parameter but stores the path in raw Express form `/users/:id`. -/
theorem claim4_path_normalization_amended :
    NodeJSAnalyzer.parseEndpointsFromFile jsUsersContent ("routes/users.js") =
      [{ path := ("/users/{id}"), method := ("GET")
         description := some ("Endpoint from routes/users.js")
         parameters := [{ name := ("id"), type := ("string"), required := true,
                          loc := ("path") }] }] ∧
    RESTAnalyzer.extractJavaScriptEndpoints jsUsersContent ("routes/users.js") =
      [{ path := ("/users/:id"), method := ("GET")
         description := some ("Endpoint from routes/users.js")
         parameters := [{ name := ("id"), type := ("string"), required := true,
                          description := some ("Path parameter: id"),
                          loc := ("path") }] }] := by
  decide

/-- Claim C5 (code bug): the Next.js handler checking `req.method` against
GET and PUT is found by the outer regex (both checks are extracted), but
the inner regex `['"](\\w+)['"]` — whose `\\w` matches a literal backslash
followed by `w` — never matches a quoted method name, so the method list
falls back to `[GET, POST]`; the extracted endpoints are
`{GET, /api/orders/{id}}` and `{POST, /api/orders/{id}}` instead of the
claimed GET/PUT pair.  The path itself is derived from the file name as
claimed. -/
theorem claim5_nextjs_methods_code_bug :
    RESTAnalyzer.nextJsMethodChecks nextJsContent =
      [("req.method === \"GET\""), ("req.method === \"PUT\"")] ∧
    RESTAnalyzer.extractMethodsFromNextJsHandler nextJsContent = [("GET"), ("POST")] ∧
    RESTAnalyzer.inferNextJsApiPath ("pages/api/orders/[id].js") = ("/api/orders/{id}") ∧
    (RESTAnalyzer.extractJavaScriptEndpoints nextJsContent
        ("pages/api/orders/[id].js")).map (fun e => (e.method, e.path)) =
      [(("GET"), ("/api/orders/{id}")), (("POST"), ("/api/orders/{id}"))] := by
  decide

/-- Claim C6 (code bug): the handler text contains the dereference
`req.query.limit` inside the ±500-character window, yet
`NodeJSAnalyzer.extractParameters` returns no query parameter at all: the
query regexes `req\\.query\\.(...)` and `query\\.(...)` require literal
backslash characters in the source text, so they never match ordinary
JavaScript. -/
theorem claim6_query_params_code_bug :
    listContains queryContent.data (("req.query.limit").data) = true ∧
    NodeJSAnalyzer.extractParameters ("/users") queryContent 0 = [] ∧
    (NodeJSAnalyzer.parseEndpointsFromFile queryContent ("routes.js")).map
        (fun e => (e.method, e.path, e.parameters)) =
      [(("GET"), ("/users"), ([] : List Parameter))] := by
  decide

/-- Claim C8: a single `class OrderViewSet(...):` match synthesizes exactly
the six conventional CRUD endpoints, at `/order/` (list, create) and
`/order/{id}/` (retrieve, update, partial update, delete), the base path
being the class name with its ViewSet suffix removed and lowercased. -/
theorem claim8_drf_crud :
    (∀ f : String,
      (RESTAnalyzer.drfCrudEndpoints ("OrderViewSet") f).map (fun e => (e.method, e.path)) =
        [(("GET"), ("/order/")), (("POST"), ("/order/")),
         (("GET"), ("/order/{id}/")), (("PUT"), ("/order/{id}/")),
         (("PATCH"), ("/order/{id}/")), (("DELETE"), ("/order/{id}/"))]) ∧
    (RESTAnalyzer.extractPythonEndpoints drfContent ("views.py")).map
        (fun e => (e.method, e.path)) =
      [(("GET"), ("/order/")), (("POST"), ("/order/")),
       (("GET"), ("/order/{id}/")), (("PUT"), ("/order/{id}/")),
       (("PATCH"), ("/order/{id}/")), (("DELETE"), ("/order/{id}/"))] := by
  exact ⟨fun f => rfl, by decide⟩

theorem findD_eq_filter_headD (l : List String) (p : String → Bool) (d : String) :
    (l.find? p).getD d = (l.filter p).headD d := by
  induction l with
  | nil => rfl
  | cons a t ih =>
    by_cases h : p a
    · simp [List.find?_cons, List.filter_cons, h]
    · rw [List.find?_cons, List.filter_cons]
      simp only [h, Bool.false_eq_true, if_false, cond_false]
      exact ih

/-- Claim C9: in the rest-api analyzer the recorded method is the first
element of the fixed list GET, POST, PUT, PATCH, DELETE, OPTIONS, HEAD
occurring as a substring of the uppercased full matched text (path literal
included); consequently `app.delete("/budgets", ...)` — and likewise the
Ruby, Go and PHP delete registrations for `/budgets` — is recorded with
method GET, because `GET` occurs inside `/BUDGETS`. -/
theorem claim9_method_from_match :
    (∀ s : String,
      RESTAnalyzer.extractMethodFromMatch s =
        (RESTAnalyzer.httpMethodsUpper.filter
          (fun m => listContains (toUpperStr s).data m.data)).headD ("GET")) ∧
    RESTAnalyzer.extractMethodFromMatch ("app.delete(\"/budgets\"") = ("GET") ∧
    (RESTAnalyzer.extractJavaScriptEndpoints jsDeleteContent ("routes.js")).map
        (fun e => (e.method, e.path)) = [(("GET"), ("/budgets"))] ∧
    (RESTAnalyzer.extractRubyEndpoints rubyDeleteContent ("config/routes.rb")).map
        (fun e => (e.method, e.path)) = [(("GET"), ("/budgets"))] ∧
    (RESTAnalyzer.extractGoEndpoints goDeleteContent ("main.go")).map
        (fun e => (e.method, e.path)) = [(("GET"), ("/budgets"))] ∧
    (RESTAnalyzer.extractPHPEndpoints phpDeleteContent ("routes/web.php")).map
        (fun e => (e.method, e.path)) = [(("GET"), ("/budgets"))] := by
  refine ⟨?_, by decide, by decide, by decide, by decide, by decide⟩
  intro s
  simp only [RESTAnalyzer.extractMethodFromMatch]
  exact findD_eq_filter_headD _ _ _

/-! ### Identifier derivation (claim C7) -/

theorem string_eq_empty_iff (s : String) : s = ("") ↔ s.data = [] := String.ext_iff

/-- Claim C7, counterexample: for the root path `/`, the `toolName` helper
yields `get_` — the lowercased method followed by a trailing underscore —
not exactly the lowercased method `get`. -/
theorem claim7_counterexample :
    TemplateManager.toolName ("GET") ("/") = ("get_") ∧
    TemplateManager.toolName ("GET") ("/") ≠ toLowerStr ("GET") := by
  decide

/-- Claim C7 as amended: `toolName` is the lowercased method, an
underscore, and the path's non-empty segments (braces and colons stripped,
lowercased) joined by underscores; on the root path `/` it degrades to the
lowercased method *plus a trailing underscore* while `safeFileName`
degrades to exactly the lowercased method; `safeFileName` falls back to
the literal `unknownTool` on an empty method or path, and neither helper
ever returns the empty string. -/
theorem claim7_identifiers_amended :
    (∀ m p : String,
      0 < (TemplateManager.toolName m p).length ∧
      0 < (TemplateManager.safeFileName m p).length) ∧
    TemplateManager.toolName ("GET") ("/users/{id}") = ("get_users_id") ∧
    TemplateManager.toolName ("GET") ("/") = ("get_") ∧
    TemplateManager.safeFileName ("GET") ("/") = ("get") ∧
    TemplateManager.safeFileName ("") ("/users") = ("unknownTool") ∧
    TemplateManager.safeFileName ("GET") ("") = ("unknownTool") := by
  refine ⟨?_, by decide, by decide, by decide, by decide, by decide⟩
  intro m p
  constructor
  · show 0 < (TemplateManager.toolName m p).length
    simp [TemplateManager.toolName, String.length]
  · show 0 < (TemplateManager.safeFileName m p).length
    rw [TemplateManager.safeFileName]
    split
    · decide
    · rename_i hcond
      have hm : ¬ m = ("") := by
        intro he
        exact hcond (by simp [he])
      have hdata : m.data ≠ [] := fun hd => hm ((string_eq_empty_iff m).mpr hd)
      have hpos : 0 < m.data.length := List.length_pos.mpr hdata
      simp only [String.length, jsLower, List.length_append, List.length_map]
      omega

/-! ### OpenAPI mode (claim C10) -/

theorem parseOpenAPISpec_yaml (f : OpenAPIAnalyzer.SrcFile)
    (h : f.ext = ("yaml") ∨ f.ext = ("yml")) :
    OpenAPIAnalyzer.parseOpenAPISpec f =
      Except.error ("YAML parsing not implemented. Please convert to JSON format.") := by
  rcases h with h | h <;>
    simp only [OpenAPIAnalyzer.parseOpenAPISpec, h] <;>
    rw [if_neg (by decide), if_pos (by decide)]

/-- Claim C10: a project whose OpenAPI/Swagger spec files all carry a
`.yaml`/`.yml` extension is classified as `openapi` by type detection, but
`OpenAPIAnalyzer.analyze` then fails with the fixed YAML error instead of
returning a ProjectInfo. -/
theorem claim10_yaml_specs_fail (p : OpenAPIAnalyzer.Project)
    (h1 : 0 < (OpenAPIAnalyzer.openApiGlob p).length)
    (h2 : ∀ f ∈ OpenAPIAnalyzer.openApiGlob p, f.ext = ("yaml") ∨ f.ext = ("yml")) :
    ProjectAnalyzer.detectProjectType p = ("openapi") ∧
    OpenAPIAnalyzer.analyze p =
      Except.error ("YAML parsing not implemented. Please convert to JSON format.") := by
  constructor
  · rw [ProjectAnalyzer.detectProjectType, if_pos h1]
  · rw [OpenAPIAnalyzer.analyze]
    rcases hg : OpenAPIAnalyzer.openApiGlob p with _ | ⟨f, rest⟩
    · rw [hg] at h1; simp at h1
    · have hf : f ∈ OpenAPIAnalyzer.openApiGlob p := by rw [hg]; exact List.mem_cons_self _ _
      simp [hg, parseOpenAPISpec_yaml f (h2 f hf)]

/-- Witness for claim C10: a project with a single root-level
`openapi.yaml`. -/
theorem claim10_yaml_specs_fail_witness :
    ProjectAnalyzer.detectProjectType pYaml = ("openapi") ∧
    OpenAPIAnalyzer.analyze pYaml =
      Except.error ("YAML parsing not implemented. Please convert to JSON format.") :=
  claim10_yaml_specs_fail pYaml (by decide) (by decide)

end Agentify
